import Mathlib

/-!
Verification of the correlation-and-predicate-evaluation engine of the
`c7n_gcp` filters `GCPMetricsFilter` (`c7n_gcp/filters/metrics.py`) and
`SecurityComandCenterFindingsFilter` (`c7n_gcp/filters/sccfindings.py`).

The Python data is JSON-like: resources and remote records are nested
dictionaries/lists of scalars.  `JVal` is a shallow embedding of such
values; a resource (a Python `dict` at top level) is embedded as the
association list of its fields, in insertion order, matching the ordered
semantics of Python dictionaries.
-/

set_option maxHeartbeats 1000000

/-- JSON-like Python value: `None`, booleans, numbers (modelled as `Rat`),
strings, lists and dictionaries (association lists in insertion order). -/
inductive JVal where
  | null
  | boolV (b : Bool)
  | num (q : Rat)
  | str (s : String)
  | arr (xs : List JVal)
  | obj (fields : List (String × JVal))

/-- A Python resource dictionary, as its ordered field list. -/
abbrev Resource := List (String × JVal)

mutual

/-- Structural equality test on `JVal` (Python `==` on JSON-like data). -/
def JVal.beq : JVal → JVal → Bool
  | .null, .null => true
  | .boolV a, .boolV b => a == b
  | .num a, .num b => a == b
  | .str a, .str b => a == b
  | .arr xs, .arr ys => JVal.beqList xs ys
  | .obj xs, .obj ys => JVal.beqPairs xs ys
  | _, _ => false

/-- Elementwise `JVal.beq` on lists. -/
def JVal.beqList : List JVal → List JVal → Bool
  | [], [] => true
  | x :: xs, y :: ys => JVal.beq x y && JVal.beqList xs ys
  | _, _ => false

/-- Pairwise `JVal.beq` on dictionary field lists. -/
def JVal.beqPairs : List (String × JVal) → List (String × JVal) → Bool
  | [], [] => true
  | (k, x) :: xs, (k', y) :: ys => k == k' && JVal.beq x y && JVal.beqPairs xs ys
  | _, _ => false

end

mutual

theorem JVal.eq_of_beq : ∀ a b : JVal, JVal.beq a b = true → a = b
  | .null, .null, _ => rfl
  | .boolV a, .boolV b, h => by simp [JVal.beq] at h; simp [h]
  | .num a, .num b, h => by simp [JVal.beq] at h; simp [h]
  | .str a, .str b, h => by simp [JVal.beq] at h; simp [h]
  | .arr xs, .arr ys, h => by
      simp only [JVal.beq] at h
      exact congrArg JVal.arr (JVal.eqList_of_beqList xs ys h)
  | .obj xs, .obj ys, h => by
      simp only [JVal.beq] at h
      exact congrArg JVal.obj (JVal.eqPairs_of_beqPairs xs ys h)
  | .null, .boolV _, h => by simp [JVal.beq] at h
  | .null, .num _, h => by simp [JVal.beq] at h
  | .null, .str _, h => by simp [JVal.beq] at h
  | .null, .arr _, h => by simp [JVal.beq] at h
  | .null, .obj _, h => by simp [JVal.beq] at h
  | .boolV _, .null, h => by simp [JVal.beq] at h
  | .boolV _, .num _, h => by simp [JVal.beq] at h
  | .boolV _, .str _, h => by simp [JVal.beq] at h
  | .boolV _, .arr _, h => by simp [JVal.beq] at h
  | .boolV _, .obj _, h => by simp [JVal.beq] at h
  | .num _, .null, h => by simp [JVal.beq] at h
  | .num _, .boolV _, h => by simp [JVal.beq] at h
  | .num _, .str _, h => by simp [JVal.beq] at h
  | .num _, .arr _, h => by simp [JVal.beq] at h
  | .num _, .obj _, h => by simp [JVal.beq] at h
  | .str _, .null, h => by simp [JVal.beq] at h
  | .str _, .boolV _, h => by simp [JVal.beq] at h
  | .str _, .num _, h => by simp [JVal.beq] at h
  | .str _, .arr _, h => by simp [JVal.beq] at h
  | .str _, .obj _, h => by simp [JVal.beq] at h
  | .arr _, .null, h => by simp [JVal.beq] at h
  | .arr _, .boolV _, h => by simp [JVal.beq] at h
  | .arr _, .num _, h => by simp [JVal.beq] at h
  | .arr _, .str _, h => by simp [JVal.beq] at h
  | .arr _, .obj _, h => by simp [JVal.beq] at h
  | .obj _, .null, h => by simp [JVal.beq] at h
  | .obj _, .boolV _, h => by simp [JVal.beq] at h
  | .obj _, .num _, h => by simp [JVal.beq] at h
  | .obj _, .str _, h => by simp [JVal.beq] at h
  | .obj _, .arr _, h => by simp [JVal.beq] at h

theorem JVal.eqList_of_beqList : ∀ xs ys : List JVal, JVal.beqList xs ys = true → xs = ys
  | [], [], _ => rfl
  | x :: xs, y :: ys, h => by
      simp only [JVal.beqList, Bool.and_eq_true] at h
      exact congrArg₂ (· :: ·) (JVal.eq_of_beq x y h.1) (JVal.eqList_of_beqList xs ys h.2)
  | [], _ :: _, h => by simp [JVal.beqList] at h
  | _ :: _, [], h => by simp [JVal.beqList] at h

theorem JVal.eqPairs_of_beqPairs :
    ∀ xs ys : List (String × JVal), JVal.beqPairs xs ys = true → xs = ys
  | [], [], _ => rfl
  | (k, x) :: xs, (k', y) :: ys, h => by
      simp only [JVal.beqPairs, Bool.and_eq_true, beq_iff_eq] at h
      refine congrArg₂ (· :: ·) ?_ (JVal.eqPairs_of_beqPairs xs ys h.2)
      exact Prod.ext h.1.1 (JVal.eq_of_beq x y h.1.2)
  | [], _ :: _, h => by simp [JVal.beqPairs] at h
  | _ :: _, [], h => by simp [JVal.beqPairs] at h

end

mutual

theorem JVal.beq_rfl : ∀ a : JVal, JVal.beq a a = true
  | .null => rfl
  | .boolV a => by simp [JVal.beq]
  | .num a => by simp [JVal.beq]
  | .str a => by simp [JVal.beq]
  | .arr xs => by simp only [JVal.beq]; exact JVal.beqList_rfl xs
  | .obj xs => by simp only [JVal.beq]; exact JVal.beqPairs_rfl xs

theorem JVal.beqList_rfl : ∀ xs : List JVal, JVal.beqList xs xs = true
  | [] => rfl
  | x :: xs => by
      simp only [JVal.beqList, Bool.and_eq_true]
      exact ⟨JVal.beq_rfl x, JVal.beqList_rfl xs⟩

theorem JVal.beqPairs_rfl : ∀ xs : List (String × JVal), JVal.beqPairs xs xs = true
  | [] => rfl
  | (k, x) :: xs => by
      simp only [JVal.beqPairs, Bool.and_eq_true, beq_iff_eq]
      exact ⟨⟨trivial, JVal.beq_rfl x⟩, JVal.beqPairs_rfl xs⟩

end

instance : DecidableEq JVal := fun a b =>
  if h : JVal.beq a b = true then isTrue (JVal.eq_of_beq a b h)
  else isFalse (fun he => h (he ▸ JVal.beq_rfl a))

/-- Python truthiness of a JSON-like value: `None`, `False`, `0`, `""`,
`[]` and `\x7b\x7d` are falsy, everything else is truthy. -/
def truthy : JVal → Bool
  | .null => false
  | .boolV b => b
  | .num q => !(q == 0)
  | .str s => !(s == "")
  | .arr xs => !xs.isEmpty
  | .obj fs => !fs.isEmpty

/-- Dictionary lookup (`d.get(k)` / `d[k]` distinguished by the caller):
first (unique) binding of `k` in the association list. -/
def alistGet {κ α : Type} [DecidableEq κ] (k : κ) : List (κ × α) → Option α
  | [] => none
  | (k', v) :: rest => if k' = k then some v else alistGet k rest

/-- Dictionary update `d[k] = v`: replaces the binding in place when the key
is present (Python dicts keep the original insertion position), otherwise
appends the new binding at the end. -/
def alistSet {κ α : Type} [DecidableEq κ] (k : κ) (v : α) : List (κ × α) → List (κ × α)
  | [] => [(k, v)]
  | (k', v') :: rest => if k' = k then (k, v) :: rest else (k', v') :: alistSet k v rest

/-- Python `d.get(k, [])` for a dictionary of lists. -/
def listAt {κ α : Type} [DecidableEq κ] (k : κ) (m : List (κ × List α)) : List α :=
  (alistGet k m).getD []

/-- Lookup of `k` on a dictionary field list of a JSON object, `none` when
the value is not an object or the key is missing (Python raises there). -/
def objGet (k : String) : JVal → Option JVal
  | .obj fs => alistGet k fs
  | _ => none

/-- Python `s.split(c)` on character lists: splits at every occurrence of
`c`; never returns the empty list. -/
def splitOnChar (c : Char) : List Char → List (List Char)
  | [] => [[]]
  | a :: rest =>
    let r := splitOnChar c rest
    if a = c then [] :: r
    else
      match r with
      | h :: t => (a :: h) :: t
      | [] => [[a]]

/-- Model of `jmespath.search` restricted to plain dotted identifier paths, the only
form these filters use (`"name"`, `"metric.labels.instance_name"`, ...):
follows each path segment through nested objects, `none` when a step does
not resolve (jmespath returns `None` there). -/
def jsearch (path : String) (v : JVal) : Option JVal :=
  (splitOnChar '.' path.toList).foldl
    (fun acc seg => acc.bind (objGet (String.mk seg))) (some v)

/-- First segment of a dotted path, the only part of a resource dictionary
`jsearch` reads at top level. -/
def firstSeg (path : String) : String :=
  String.mk ((splitOnChar '.' path.toList).headD [])

/-- Whether `pat` is an initial segment of `l`. -/
def startsList {α : Type} [DecidableEq α] : List α → List α → Bool
  | [], _ => true
  | _ :: _, [] => false
  | a :: as, b :: bs => a = b && startsList as bs

/-- Drops everything up to and through the first occurrence of `sep`;
`none` when `sep` does not occur. -/
def afterFirst {α : Type} [DecidableEq α] (sep : List α) : List α → Option (List α)
  | [] => none
  | c :: rest =>
    if startsList sep (c :: rest) then some ((c :: rest).drop sep.length)
    else afterFirst sep rest

/-- Python `s.rsplit(sep, 1)[0]`: the part of `s` before the last
occurrence of `sep`, or all of `s` when `sep` does not occur.  The last
occurrence of `sep` in `s` is the first occurrence of `sep.reverse` in
`s.reverse`. -/
def pyRsplitOnceHead (sep s : String) : String :=
  match afterFirst sep.toList.reverse s.toList.reverse with
  | some t => String.mk t.reverse
  | none => s

/-- Python `str(x)`/`format` of a scalar JSON value as it appears inside a
built filter expression.  The filters only ever format strings (resource
names) and `None` (an unresolved jmespath lookup); the remaining scalar
reprs are not exercised and are stubbed with their type name. -/
def pyFormatScalar : Option JVal → String
  | none => "None"
  | some .null => "None"
  | some (.boolV b) => if b then "True" else "False"
  | some (.str s) => s
  | some (.num _) => "<number>"
  | some (.arr _) => "<list>"
  | some (.obj _) => "<dict>"

/-- Python `float(x)` on the scalar stored in a metric point value, as far
as the filters exercise it: numbers pass through, booleans coerce to 0/1,
anything else raises (string parsing is not exercised and is modelled as a
raise). -/
def pyFloat : JVal → Option Rat
  | .num q => some q
  | .boolV b => some (if b then 1 else 0)
  | _ => none

/-- Modelled from the spec: `OPERATORS['less-than']` of `c7n.filters.core`
(that module is outside the embedded sources; the spec lists `less-than`
among the supported comparison operators, with `op(observed, configured)`
argument order). -/
def opLessThan (a b : Rat) : Bool := decide (a < b)

namespace GCPMetricsFilter

/-- Configuration of `GCPMetricsFilter` after `process` has read
`self.data`: the metric type name, the two correlation key paths, the
aggregation enums, the default for missing records, and the comparison
operator and threshold. -/
structure Config where
  metric : String
  resource_key : String
  metric_key : String
  aligner : String
  reducer : String
  missing_value : Rat
  op : Rat → Rat → Bool
  value : Rat

/-- The composite annotation key
`"%s.%s.%s" % (self.metric, self.aligner, self.reducer)`. -/
def c7n_metric_key (cfg : Config) : String :=
  cfg.metric ++ "." ++ cfg.aligner ++ "." ++ cfg.reducer

/-- Embeds `GCPMetricsFilter.get_query_filter`: starts from
`'metric.type = "<metric>" AND '`, appends `'<metric_key> = "<name>" OR '`
per resource (the name read via jmespath with `resource_key`), then strips
from the last `' OR '` on with `rsplit(' OR ', 1)[0]`. -/
def get_query_filter (cfg : Config) (resources : List Resource) : String :=
  let base := "metric.type = \"" ++ cfg.metric ++ "\" AND "
  let full := resources.foldl
    (fun acc r =>
      acc ++ cfg.metric_key ++ " = \"" ++
        pyFormatScalar (jsearch cfg.resource_key (JVal.obj r)) ++ "\" OR ")
    base
  pyRsplitOnceHead " OR " full

/-- The loop body state of `GCPMetricsFilter.split_by_resource`: one
dictionary assignment `self.resource_metric_dict[resource_name] = m` per
fetched time series, keyed by the jmespath value at `metric_key`. -/
def split_go (cfg : Config) (d : List (Option JVal × JVal)) :
    List JVal → List (Option JVal × JVal)
  | [] => d
  | m :: rest => split_go cfg (alistSet (jsearch cfg.metric_key m) m d) rest

/-- Embeds `GCPMetricsFilter.split_by_resource`: indexes the fetched time series
by the jmespath value at `metric_key`, starting from the empty
`resource_metric_dict` set up by `process`; a plain dictionary assignment,
so a later record with the same key overwrites an earlier one. -/
def split_by_resource (cfg : Config) (metric_list : List JVal) : List (Option JVal × JVal) :=
  split_go cfg [] metric_list

/-- The observed value read from a correlated time series:
`float(list(metric["points"][0]["value"].values())[0])`.  `none` models the
exception Python raises when any step fails (missing `points` key, empty
`points` list, missing `value` key, empty `value` dictionary, or a value
`float` rejects). -/
def observed_value (metric : JVal) : Option Rat :=
  match objGet "points" metric with
  | some (JVal.arr (p :: _)) =>
    match objGet "value" p with
    | some (JVal.obj (kv :: _)) => pyFloat kv.2
    | _ => none
  | _ => none

/-- The state of `resource.setdefault('c7n.metrics', \x7b\x7d)`: the field
list of the existing annotation dictionary, a fresh empty one when the key
is absent, and `none` when the existing value is not a dictionary (the
later item assignment then raises). -/
def setdefault_metrics (r : Resource) : Option (List (String × JVal)) :=
  match alistGet "c7n.metrics" r with
  | none => some []
  | some (JVal.obj l) => some l
  | some _ => none

/-- Lines 157-160 of `metrics.py`: `metric_value = self.missing_value`
when the correlated record is falsy (`if not metric:`), otherwise the
value read out of the record, `none` when that read raises. -/
def metric_value_of (cfg : Config) (metric : JVal) : Option Rat :=
  if truthy metric then observed_value metric else some cfg.missing_value

/-- Embeds `GCPMetricsFilter.process_resource`: ensures the `'c7n.metrics'`
annotation dictionary, looks up the resource's correlated time series
(`.get`, so `None` when absent), reads the observed value when the record
is truthy and substitutes `missing_value` otherwise, writes the record
under the composite key, and returns the updated resource together with
`op(metric_value, value)`.  `Except.error` models an uncaught exception. -/
def process_resource (cfg : Config) (dict : List (Option JVal × JVal)) (resource : Resource) :
    Except Unit (Resource × Bool) :=
  match setdefault_metrics resource with
  | none => Except.error ()
  | some rm =>
    let r1 := alistSet "c7n.metrics" (JVal.obj rm) resource
    let resource_name := jsearch cfg.resource_key (JVal.obj r1)
    let metric := (alistGet resource_name dict).getD JVal.null
    match metric_value_of cfg metric with
    | none => Except.error ()
    | some metric_value =>
      let resource' :=
        alistSet "c7n.metrics" (JVal.obj (alistSet (c7n_metric_key cfg) metric rm)) r1
      Except.ok (resource', cfg.op metric_value cfg.value)

end GCPMetricsFilter

namespace SccFindingsFilter

/-- Configuration of `SecurityComandCenterFindingsFilter` as
`process_resource` reads it: the resource-type identifier attribute
(`self.manager.resource_type.name`), whether `self.data.get('key')` is
truthy, and the inherited `ValueFilter.match` predicate (defined outside
the embedded sources, kept abstract). -/
structure Config where
  name_attr : String
  has_key : Bool
  matchFn : List JVal → Bool

/-- Embeds `SecurityComandCenterFindingsFilter.get_resource_filter`: appends
`'resourceName:"<id>"'` and `' OR '` per resource, pops the final element,
and joins.  `Except.error` models the `KeyError` of `r[...name]` and the
`IndexError` of `pop` on an empty list. -/
def get_resource_filter (cfg : Config) (resources : List Resource) : Except Unit String :=
  match resources.foldlM
    (fun acc r =>
      match alistGet cfg.name_attr r with
      | some v =>
        Except.ok (acc ++ ["resourceName:\"" ++ pyFormatScalar (some v) ++ "\"", " OR "])
      | none => Except.error ())
    ([] : List String) with
  | Except.error e => Except.error e
  | Except.ok parts =>
    match parts with
    | [] => Except.error ()
    | _ => Except.ok (String.join parts.dropLast)

/-- The correlation key of one finding record:
`f["finding"]["resourceName"].split('/')[-1]`.  `none` models the raise
when a dictionary key is missing along the way or the resolved value is
not a string. -/
def finding_resource_name (f : JVal) : Option JVal :=
  match objGet "finding" f with
  | some inner =>
    match objGet "resourceName" inner with
    | some (JVal.str s) =>
      some (JVal.str (String.mk ((splitOnChar '/' s.toList).getLastD [])))
    | _ => none
  | none => none

/-- The loop body state of
`SecurityComandCenterFindingsFilter.split_by_resource`: per finding,
`.get(key, [])`, `append`, then dictionary assignment (the `get` returns
the stored list object, so the assignment writes back the extended list).
A finding whose key does not resolve raises, modelled as `Except.error`. -/
def split_go (d : List (JVal × List JVal)) :
    List JVal → Except Unit (List (JVal × List JVal))
  | [] => Except.ok d
  | f :: rest =>
    match finding_resource_name f with
    | none => Except.error ()
    | some k => split_go (alistSet k (listAt k d ++ [f]) d) rest

/-- Embeds `SecurityComandCenterFindingsFilter.split_by_resource`: groups the
fetched findings into the fresh `findings_by_resource` dictionary,
preserving fetch order within each per-resource list. -/
def split_by_resource (finding_list : List JVal) :
    Except Unit (List (JVal × List JVal)) :=
  split_go [] finding_list

/-- The state of `resource.setdefault('c7n.findings', [])`: the element
list of the existing annotation list, a fresh empty one when the key is
absent, and `none` when the existing value is not a list (`extend` then
raises). -/
def setdefault_findings (r : Resource) : Option (List JVal) :=
  match alistGet "c7n.findings" r with
  | none => some []
  | some (JVal.arr l) => some l
  | some _ => none

/-- Embeds `SecurityComandCenterFindingsFilter.process_resource`: reads the
resource identifier (`KeyError` when absent, modelled as `Except.error`),
extends the `'c7n.findings'` annotation list with the correlated findings,
then either tests `len(resource_findings) > 0` (no `key` configured) or
delegates to the inherited `match`. -/
def process_resource (cfg : Config) (dict : List (JVal × List JVal)) (resource : Resource) :
    Except Unit (Resource × Bool) :=
  match alistGet cfg.name_attr resource with
  | none => Except.error ()
  | some resource_name =>
    let resource_findings := listAt resource_name dict
    match setdefault_findings resource with
    | none => Except.error ()
    | some old =>
      let resource' :=
        alistSet "c7n.findings" (JVal.arr (old ++ resource_findings)) resource
      Except.ok (resource',
        if cfg.has_key then cfg.matchFn resource_findings
        else decide (resource_findings.length > 0))

end SccFindingsFilter

namespace GCPMetricsFilter

/-- The same configuration with another comparison operator and threshold;
all correlation and annotation fields are unchanged. -/
def Config.withOp (cfg : Config) (o : Rat → Rat → Bool) (v : Rat) : Config :=
  ⟨cfg.metric, cfg.resource_key, cfg.metric_key, cfg.aligner, cfg.reducer,
    cfg.missing_value, o, v⟩

/-- The last fetched time series whose `metric_key` jmespath value is `k`,
the reference value for the last-write-wins property of
`split_by_resource`. -/
def lastWithKey (metric_key : String) (k : Option JVal) : List JVal → Option JVal
  | [] => none
  | m :: rest =>
    match lastWithKey metric_key k rest with
    | some x => some x
    | none => if jsearch metric_key m = k then some m else none

end GCPMetricsFilter

namespace SccFindingsFilter

/-- The `'c7n.findings'` annotation list of a resource, empty when absent. -/
def findings_ann (r : Resource) : List JVal :=
  match alistGet "c7n.findings" r with
  | some (JVal.arr l) => l
  | _ => []

/-- The same configuration with another match sub-path presence flag and
match predicate; the resource identifier attribute is unchanged. -/
def Config.withMatch (cfg : Config) (hk : Bool) (mf : List JVal → Bool) : Config :=
  ⟨cfg.name_attr, hk, mf⟩

end SccFindingsFilter

/-- Total number of records held in an index of per-key lists. -/
def sumLens {κ α : Type} (m : List (κ × List α)) : Nat :=
  (m.map (fun p => p.2.length)).sum

theorem alistGet_set_self {κ α : Type} [DecidableEq κ] (k : κ) (v : α)
    (m : List (κ × α)) : alistGet k (alistSet k v m) = some v := by
  induction m with
  | nil => simp [alistGet, alistSet]
  | cons p rest ih =>
    obtain ⟨k', v'⟩ := p
    by_cases h : k' = k
    · subst h; simp [alistGet, alistSet]
    · simp [alistGet, alistSet, h, ih]

theorem alistGet_set_ne {κ α : Type} [DecidableEq κ] (k k' : κ) (v : α)
    (m : List (κ × α)) (h : k' ≠ k) :
    alistGet k' (alistSet k v m) = alistGet k' m := by
  induction m with
  | nil =>
    simp only [alistSet, alistGet]
    rw [if_neg fun he => h he.symm]
  | cons p rest ih =>
    obtain ⟨k'', v'⟩ := p
    by_cases h2 : k'' = k
    · subst h2
      by_cases h3 : k'' = k'
      · exact absurd h3.symm h
      · simp [alistGet, alistSet, h3]
    · by_cases h3 : k'' = k'
      · subst h3; simp [alistGet, alistSet, h2]
      · simp [alistGet, alistSet, h2, h3, ih]

theorem alistSet_get_eq {κ α : Type} [DecidableEq κ] (k : κ) (v : α)
    (m : List (κ × α)) (h : alistGet k m = some v) : alistSet k v m = m := by
  induction m with
  | nil => simp [alistGet] at h
  | cons p rest ih =>
    obtain ⟨k', v'⟩ := p
    by_cases h2 : k' = k
    · subst h2
      simp only [alistGet, eq_self_iff_true, if_true, Option.some.injEq] at h
      simp [alistSet, h]
    · simp only [alistGet, if_neg h2] at h
      simp [alistSet, h2, ih h]

theorem alistSet_idem {κ α : Type} [DecidableEq κ] (k : κ) (v : α)
    (m : List (κ × α)) : alistSet k v (alistSet k v m) = alistSet k v m :=
  alistSet_get_eq k v _ (alistGet_set_self k v m)

theorem listAt_set_self {κ α : Type} [DecidableEq κ] (k : κ) (l : List α)
    (m : List (κ × List α)) : listAt k (alistSet k l m) = l := by
  simp [listAt, alistGet_set_self]

theorem listAt_set_ne {κ α : Type} [DecidableEq κ] (k k' : κ) (l : List α)
    (m : List (κ × List α)) (h : k' ≠ k) :
    listAt k' (alistSet k l m) = listAt k' m := by
  simp [listAt, alistGet_set_ne k k' l m h]

theorem sumLens_set_append {κ α : Type} [DecidableEq κ] (k : κ)
    (l : List α) (m : List (κ × List α)) :
    sumLens (alistSet k (listAt k m ++ l) m) = sumLens m + l.length := by
  induction m with
  | nil => simp [sumLens, alistSet, listAt, alistGet]
  | cons p rest ih =>
    obtain ⟨k', v'⟩ := p
    by_cases h : k' = k
    · subst h
      simp [sumLens, alistSet, listAt, alistGet]
      omega
    · simp only [listAt, alistGet, if_neg h] at ih ⊢
      simp only [alistSet, if_neg h]
      simp only [sumLens, List.map_cons, List.sum_cons] at ih ⊢
      rw [ih]
      omega

theorem splitOnChar_ne_nil (c : Char) (l : List Char) : splitOnChar c l ≠ [] := by
  cases l with
  | nil => simp [splitOnChar]
  | cons a rest =>
    simp only [splitOnChar]
    by_cases h : a = c
    · simp [h]
    · cases hr : splitOnChar c rest <;> simp [h, hr]

theorem jsearch_alistSet_ne (path : String) (k : String) (v : JVal)
    (r : List (String × JVal)) (h : firstSeg path ≠ k) :
    jsearch path (JVal.obj (alistSet k v r)) = jsearch path (JVal.obj r) := by
  unfold jsearch
  cases hs : splitOnChar '.' path.toList with
  | nil => exact absurd hs (splitOnChar_ne_nil _ _)
  | cons s rest =>
    unfold firstSeg at h
    rw [hs] at h
    simp only [List.headD_cons] at h
    simp only [List.foldl_cons]
    have hstep : objGet (String.mk s) (JVal.obj (alistSet k v r)) =
        objGet (String.mk s) (JVal.obj r) := by
      show alistGet (String.mk s) (alistSet k v r) = alistGet (String.mk s) r
      exact alistGet_set_ne k (String.mk s) v r h
    show List.foldl (fun acc seg => acc.bind (objGet (String.mk seg)))
        (objGet (String.mk s) (JVal.obj (alistSet k v r))) rest =
      List.foldl (fun acc seg => acc.bind (objGet (String.mk seg)))
        (objGet (String.mk s) (JVal.obj r)) rest
    rw [hstep]

namespace Samples

/-- A sample metrics-filter configuration: metric type `m`, resource key
path `name`, metric key path `lbl`, default aggregation enums, missing
value 0, operator less-than, threshold 1. -/
def cfgM : GCPMetricsFilter.Config :=
  ⟨"m", "name", "lbl", "ALIGN_NONE", "REDUCE_NONE", 0, opLessThan, 1⟩

/-- A sample findings-filter configuration without a configured `key`. -/
def cfgF : SccFindingsFilter.Config := ⟨"name", false, fun _ => false⟩

/-- A resource named `vm-1`. -/
def rVm1 : Resource := [("name", JVal.str "vm-1")]

/-- A resource named `vm-2`. -/
def rVm2 : Resource := [("name", JVal.str "vm-2")]

/-- A fetched time series that is truthy but has no `points` key. -/
def mMissingPoints : JVal := JVal.obj [("metric", JVal.obj [("type", JVal.str "m")])]

/-- A fetched time series with an empty `points` list. -/
def mEmptyPoints : JVal := JVal.obj [("points", JVal.arr [])]

/-- A fetched time series whose first point has no `value` key. -/
def mNoValue : JVal := JVal.obj [("points", JVal.arr [JVal.obj [("interval", JVal.null)]])]

/-- A fetched time series whose first point has an empty `value`
dictionary. -/
def mEmptyValue : JVal := JVal.obj [("points", JVal.arr [JVal.obj [("value", JVal.obj [])]])]

/-- A well-formed fetched time series with observed value 2. -/
def mGood : JVal :=
  JVal.obj [("points", JVal.arr [JVal.obj [("value", JVal.obj [("doubleValue", JVal.num 2)])]])]

/-- A metrics correlation index holding one record under key `vm-1`. -/
def dictOf (m : JVal) : List (Option JVal × JVal) := [(some (JVal.str "vm-1"), m)]

/-- A finding on `vm-1` with the given category, as fetched from the
Security Command Center list call. -/
def findingOn (rname cat : String) : JVal :=
  JVal.obj [("finding", JVal.obj
    [("resourceName", JVal.str rname), ("category", JVal.str cat)])]

end Samples

/-- Claim C1 (status: code_bug, evaluation of the code at the failing
input).  For one and for two resources both filter-expression builders
emit exactly one clause per resource joined by `' OR '` with no dangling
trailing operator, but for the empty resource list the claim fails on the
code: `get_query_filter` keeps a dangling trailing `' AND '` (its
`rsplit(' OR ', 1)` strips nothing when no `' OR '` occurs), and
`get_resource_filter` raises `IndexError` (`pop` on an empty list),
modelled as `Except.error`. -/
theorem c1_filter_builders_zero_one_many :
    GCPMetricsFilter.get_query_filter Samples.cfgM [] = "metric.type = \"m\" AND " ∧
    GCPMetricsFilter.get_query_filter Samples.cfgM [Samples.rVm1] =
      "metric.type = \"m\" AND lbl = \"vm-1\"" ∧
    GCPMetricsFilter.get_query_filter Samples.cfgM [Samples.rVm1, Samples.rVm2] =
      "metric.type = \"m\" AND lbl = \"vm-1\" OR lbl = \"vm-2\"" ∧
    SccFindingsFilter.get_resource_filter Samples.cfgF [] = Except.error () ∧
    SccFindingsFilter.get_resource_filter Samples.cfgF [Samples.rVm1] =
      Except.ok "resourceName:\"vm-1\"" ∧
    SccFindingsFilter.get_resource_filter Samples.cfgF [Samples.rVm1, Samples.rVm2] =
      Except.ok "resourceName:\"vm-1\" OR resourceName:\"vm-2\"" :=
  ⟨rfl, rfl, rfl, rfl, rfl, rfl⟩

/-- Claim C2 (status: code_bug, evaluation of the code at the failing
inputs).  A correlated record that is present and truthy but malformed —
missing the `points` list, an empty `points` list, a first point without
`value`, or an empty `value` dictionary — makes
`float(list(metric["points"][0]["value"].values())[0])` raise
(`KeyError`/`IndexError`), modelled as `Except.error`: the evaluator does
not fall back to the configured default as the claim states. -/
theorem c2_malformed_record_raises :
    GCPMetricsFilter.process_resource Samples.cfgM (Samples.dictOf Samples.mMissingPoints)
      Samples.rVm1 = Except.error () ∧
    GCPMetricsFilter.process_resource Samples.cfgM (Samples.dictOf Samples.mEmptyPoints)
      Samples.rVm1 = Except.error () ∧
    GCPMetricsFilter.process_resource Samples.cfgM (Samples.dictOf Samples.mNoValue)
      Samples.rVm1 = Except.error () ∧
    GCPMetricsFilter.process_resource Samples.cfgM (Samples.dictOf Samples.mEmptyValue)
      Samples.rVm1 = Except.error () :=
  ⟨rfl, rfl, rfl, rfl⟩

namespace GCPMetricsFilter

theorem split_go_lookup (cfg : Config) :
    ∀ (ms : List JVal) (init : List (Option JVal × JVal)) (k : Option JVal),
    alistGet k (split_go cfg init ms) =
      match lastWithKey cfg.metric_key k ms with
      | some x => some x
      | none => alistGet k init := by
  intro ms
  induction ms with
  | nil => intro init k; simp [split_go, lastWithKey]
  | cons m rest ih =>
    intro init k
    simp only [split_go, lastWithKey]
    rw [ih]
    cases hrest : lastWithKey cfg.metric_key k rest with
    | some x => rfl
    | none =>
      by_cases hk : jsearch cfg.metric_key m = k
      · rw [if_pos hk, ← hk, alistGet_set_self]
      · rw [if_neg hk, alistGet_set_ne _ _ _ _ (fun he => hk he.symm)]

end GCPMetricsFilter

/-- Claim C5: `GCPMetricsFilter.split_by_resource` maps each key to the
last fetched time series bearing that key — when several records share a
`metric_key` value, the last occurrence in fetch order wins in the built
index. -/
theorem c5_metrics_split_last_write_wins (cfg : GCPMetricsFilter.Config)
    (metric_list : List JVal) (k : Option JVal) :
    alistGet k (GCPMetricsFilter.split_by_resource cfg metric_list) =
      GCPMetricsFilter.lastWithKey cfg.metric_key k metric_list := by
  unfold GCPMetricsFilter.split_by_resource
  rw [GCPMetricsFilter.split_go_lookup]
  cases GCPMetricsFilter.lastWithKey cfg.metric_key k metric_list with
  | some x => rfl
  | none => simp [alistGet]

namespace SccFindingsFilter

theorem split_go_spec :
    ∀ (fs : List JVal) (init : List (JVal × List JVal)),
      (∀ f ∈ fs, (finding_resource_name f).isSome = true) →
      ∃ idx, split_go init fs = Except.ok idx ∧
        sumLens idx = sumLens init + fs.length ∧
        ∀ k, listAt k idx = listAt k init ++
          fs.filter (fun f => decide (finding_resource_name f = some k)) := by
  intro fs
  induction fs with
  | nil =>
    intro init _
    exact ⟨init, rfl, by simp [sumLens], fun k => by simp [List.filter]⟩
  | cons f rest ih =>
    intro init h
    obtain ⟨k0, hk0⟩ := Option.isSome_iff_exists.mp (h f (List.mem_cons_self f rest))
    obtain ⟨idx, heq, hsum, hat⟩ :=
      ih (alistSet k0 (listAt k0 init ++ [f]) init)
        (fun g hg => h g (List.mem_cons_of_mem f hg))
    refine ⟨idx, ?_, ?_, ?_⟩
    · simp only [split_go, hk0]
      exact heq
    · have hset : sumLens (alistSet k0 (listAt k0 init ++ [f]) init) = sumLens init + 1 := by
        simpa using sumLens_set_append k0 [f] init
      rw [hsum, hset]
      simp only [List.length_cons]
      omega
    · intro k
      rw [hat k, List.filter_cons]
      by_cases hk : k0 = k
      · subst hk
        rw [listAt_set_self]
        simp [hk0, List.append_assoc]
      · rw [listAt_set_ne _ _ _ _ (fun he => hk he.symm)]
        simp [hk0, hk]

end SccFindingsFilter

/-- Claim C4 counterexample: a finding record whose correlation key does
not resolve (here the empty dictionary, which has no `finding` key) makes
`split_by_resource` raise (`Except.error`) instead of being excluded from
the index and counted separately, refuting the final clause of the claim
as stated. -/
theorem c4_unresolvable_key_raises_counterexample :
    SccFindingsFilter.split_by_resource [JVal.obj []] = Except.error () := rfl

/-- Claim C4 (amended): when every fetched finding record resolves a
correlation key, `split_by_resource` drops no record — the sum of the
lengths of the per-key lists in the built index equals the number of input
records, and the list at each key is exactly the subsequence of input
records bearing that key, in fetch order.  (A record with an unresolvable
key instead makes the correlator raise, see the counterexample.) -/
theorem c4_findings_split_drops_no_record (fs : List JVal)
    (hres : ∀ f ∈ fs, (SccFindingsFilter.finding_resource_name f).isSome = true) :
    ∃ idx, SccFindingsFilter.split_by_resource fs = Except.ok idx ∧
      sumLens idx = fs.length ∧
      ∀ k, listAt k idx =
        fs.filter (fun f => decide (SccFindingsFilter.finding_resource_name f = some k)) := by
  obtain ⟨idx, heq, hsum, hat⟩ := SccFindingsFilter.split_go_spec fs [] hres
  refine ⟨idx, heq, ?_, fun k => ?_⟩
  · rw [hsum]; simp [sumLens]
  · rw [hat k]; simp [listAt, alistGet]

/-- Claim C4 witness: three resolvable findings, two sharing the key
`bucket-1`; the index holds all three records and the `bucket-1` list is
the two matching records in fetch order. -/
theorem c4_findings_split_drops_no_record_witness :
    (∀ f ∈ [Samples.findingOn "//storage.googleapis.com/bucket-1" "X",
            Samples.findingOn "//storage.googleapis.com/bucket-2" "Y",
            Samples.findingOn "bucket-1" "Z"],
        (SccFindingsFilter.finding_resource_name f).isSome = true) ∧
    ∃ idx, SccFindingsFilter.split_by_resource
        [Samples.findingOn "//storage.googleapis.com/bucket-1" "X",
         Samples.findingOn "//storage.googleapis.com/bucket-2" "Y",
         Samples.findingOn "bucket-1" "Z"] = Except.ok idx ∧
      sumLens idx = 3 ∧
      listAt (JVal.str "bucket-1") idx =
        [Samples.findingOn "//storage.googleapis.com/bucket-1" "X",
         Samples.findingOn "bucket-1" "Z"] := by
  have h : ∀ f ∈ [Samples.findingOn "//storage.googleapis.com/bucket-1" "X",
            Samples.findingOn "//storage.googleapis.com/bucket-2" "Y",
            Samples.findingOn "bucket-1" "Z"],
      (SccFindingsFilter.finding_resource_name f).isSome = true := by decide
  obtain ⟨idx, h1, h2, h3⟩ := c4_findings_split_drops_no_record _ h
  refine ⟨h, idx, h1, h2.trans rfl, ?_⟩
  rw [h3 (JVal.str "bucket-1")]
  rfl

namespace Samples

/-- The scenario-B configuration: `missing-value: 0`, `op: less-than`,
`value: 0.1`. -/
def cfgScenB : GCPMetricsFilter.Config :=
  ⟨"m", "name", "lbl", "ALIGN_NONE", "REDUCE_NONE", 0, opLessThan, 0.1⟩

end Samples

/-- Claim C6: a resource with no correlated metric record is evaluated
against the configured default: `process_resource` does not fail, writes
`None` (the `.get` result) as the annotation value under the composite
key, and returns `op(missing_value, value)` as the retain/drop verdict. -/
theorem c6_missing_record_uses_default (cfg : GCPMetricsFilter.Config)
    (dict : List (Option JVal × JVal)) (resource : Resource)
    (rm : List (String × JVal))
    (hsd : GCPMetricsFilter.setdefault_metrics resource = some rm)
    (hmiss : alistGet (jsearch cfg.resource_key
      (JVal.obj (alistSet "c7n.metrics" (JVal.obj rm) resource))) dict = none) :
    GCPMetricsFilter.process_resource cfg dict resource =
      Except.ok
        (alistSet "c7n.metrics"
          (JVal.obj (alistSet (GCPMetricsFilter.c7n_metric_key cfg) JVal.null rm))
          (alistSet "c7n.metrics" (JVal.obj rm) resource),
         cfg.op cfg.missing_value cfg.value) := by
  simp [GCPMetricsFilter.process_resource, hsd, hmiss,
    GCPMetricsFilter.metric_value_of, truthy]

/-- Claim C6 witness, scenario B of the spec: resource `vm-1`, no matching
record, `missing-value: 0`, `op: less-than`, `value: 0.1` — the resource
is retained because `0 < 0.1`. -/
theorem c6_missing_record_uses_default_witness :
    GCPMetricsFilter.setdefault_metrics Samples.rVm1 = some [] ∧
    alistGet (jsearch Samples.cfgScenB.resource_key
      (JVal.obj (alistSet "c7n.metrics" (JVal.obj []) Samples.rVm1)))
      ([] : List (Option JVal × JVal)) = none ∧
    GCPMetricsFilter.process_resource Samples.cfgScenB [] Samples.rVm1 =
      Except.ok
        (Samples.rVm1 ++ [("c7n.metrics",
          JVal.obj [("m.ALIGN_NONE.REDUCE_NONE", JVal.null)])], true) := by
  refine ⟨rfl, rfl, ?_⟩
  have h := c6_missing_record_uses_default Samples.cfgScenB [] Samples.rVm1 [] rfl rfl
  rw [h]
  have hop : Samples.cfgScenB.op Samples.cfgScenB.missing_value Samples.cfgScenB.value = true := by
    show opLessThan 0 0.1 = true
    simp only [opLessThan, decide_eq_true_eq]
    norm_num
  rw [hop]
  rfl

/-- Claim C10: a correlated record that is present in the index but falsy
(here the empty dictionary) fails the `if not metric:` truthiness test
just like an absent record, so the configured default is compared against
the threshold — yet the falsy record itself (not `None`) is written as the
annotation value under the composite key. -/
theorem c10_falsy_record_treated_as_missing (cfg : GCPMetricsFilter.Config)
    (dict : List (Option JVal × JVal)) (resource : Resource)
    (rm : List (String × JVal))
    (hsd : GCPMetricsFilter.setdefault_metrics resource = some rm)
    (hfalsy : alistGet (jsearch cfg.resource_key
      (JVal.obj (alistSet "c7n.metrics" (JVal.obj rm) resource))) dict =
      some (JVal.obj [])) :
    GCPMetricsFilter.process_resource cfg dict resource =
      Except.ok
        (alistSet "c7n.metrics"
          (JVal.obj (alistSet (GCPMetricsFilter.c7n_metric_key cfg) (JVal.obj []) rm))
          (alistSet "c7n.metrics" (JVal.obj rm) resource),
         cfg.op cfg.missing_value cfg.value) := by
  simp [GCPMetricsFilter.process_resource, hsd, hfalsy,
    GCPMetricsFilter.metric_value_of, truthy]

/-- Claim C10 witness: the index holds the falsy record `\x7b\x7d` under
`vm-1`; the default 0 is compared (`0 < 1`, retained) while the empty
dictionary itself is the written annotation value. -/
theorem c10_falsy_record_treated_as_missing_witness :
    GCPMetricsFilter.setdefault_metrics Samples.rVm1 = some [] ∧
    alistGet (jsearch Samples.cfgM.resource_key
      (JVal.obj (alistSet "c7n.metrics" (JVal.obj []) Samples.rVm1)))
      (Samples.dictOf (JVal.obj [])) = some (JVal.obj []) ∧
    GCPMetricsFilter.process_resource Samples.cfgM (Samples.dictOf (JVal.obj []))
      Samples.rVm1 =
      Except.ok
        (Samples.rVm1 ++ [("c7n.metrics",
          JVal.obj [("m.ALIGN_NONE.REDUCE_NONE", JVal.obj [])])], true) := by
  refine ⟨rfl, rfl, ?_⟩
  have h := c10_falsy_record_treated_as_missing Samples.cfgM (Samples.dictOf (JVal.obj []))
    Samples.rVm1 [] rfl rfl
  rw [h]
  rfl

namespace GCPMetricsFilter

/-- The `'c7n.metrics'` annotation dictionary of a resource (its field
list), empty when absent. -/
def metrics_ann (r : Resource) : List (String × JVal) :=
  match alistGet "c7n.metrics" r with
  | some (JVal.obj m) => m
  | _ => []

/-- Characterization of a non-raising `process_resource` run: it happens
exactly when the `'c7n.metrics'` container is usable and the observed
value resolves; the returned resource carries the correlated record under
the composite key and the verdict is `op(metric_value, value)`. -/
theorem metrics_process_resource_ok_iff (cfg : Config) (dict : List (Option JVal × JVal))
    (r r' : Resource) (b : Bool) :
    process_resource cfg dict r = Except.ok (r', b) ↔
    ∃ rm mv, setdefault_metrics r = some rm ∧
      metric_value_of cfg ((alistGet (jsearch cfg.resource_key
        (JVal.obj (alistSet "c7n.metrics" (JVal.obj rm) r))) dict).getD JVal.null) =
        some mv ∧
      r' = alistSet "c7n.metrics"
        (JVal.obj (alistSet (c7n_metric_key cfg)
          ((alistGet (jsearch cfg.resource_key
            (JVal.obj (alistSet "c7n.metrics" (JVal.obj rm) r))) dict).getD JVal.null) rm))
        (alistSet "c7n.metrics" (JVal.obj rm) r) ∧
      b = cfg.op mv cfg.value := by
  unfold process_resource
  cases hsd : setdefault_metrics r with
  | none => simp [hsd]
  | some rm =>
    cases hmv : metric_value_of cfg ((alistGet (jsearch cfg.resource_key
        (JVal.obj (alistSet "c7n.metrics" (JVal.obj rm) r))) dict).getD JVal.null) with
    | none => simp [hmv]
    | some mv =>
      simp only [hmv, Except.ok.injEq, Prod.mk.injEq, Option.some.injEq]
      constructor
      · rintro ⟨h1, h2⟩
        exact ⟨rm, mv, rfl, hmv, h1.symm, h2.symm⟩
      · rintro ⟨rm2, mv2, hrm, hmv2, h1, h2⟩
        cases hrm
        rw [hmv] at hmv2
        cases hmv2
        exact ⟨h1.symm, h2.symm⟩

end GCPMetricsFilter

namespace SccFindingsFilter

/-- Characterization of a non-raising findings `process_resource` run: the
resource identifier and the `'c7n.findings'` container must resolve; the
returned resource carries the extended annotation list and the verdict is
the existence check or the inherited match, by configuration. -/
theorem findings_process_resource_ok_iff (fc : Config) (dict : List (JVal × List JVal))
    (r r' : Resource) (b : Bool) :
    process_resource fc dict r = Except.ok (r', b) ↔
    ∃ rn old, alistGet fc.name_attr r = some rn ∧ setdefault_findings r = some old ∧
      r' = alistSet "c7n.findings" (JVal.arr (old ++ listAt rn dict)) r ∧
      b = (if fc.has_key then fc.matchFn (listAt rn dict)
           else decide ((listAt rn dict).length > 0)) := by
  unfold process_resource
  cases hname : alistGet fc.name_attr r with
  | none => simp [hname]
  | some rn =>
    cases hsd : setdefault_findings r with
    | none => simp [hsd]
    | some old =>
      simp only [Except.ok.injEq, Prod.mk.injEq, Option.some.injEq]
      constructor
      · rintro ⟨h1, h2⟩
        exact ⟨rn, old, rfl, rfl, h1.symm, h2.symm⟩
      · rintro ⟨rn2, old2, hrn2, hold2, h1, h2⟩
        cases hrn2
        cases hold2
        exact ⟨h1.symm, h2.symm⟩

/-- The annotation list equals whatever `setdefault('c7n.findings', [])`
returns. -/
theorem findings_ann_of_setdefault (r : Resource) (old : List JVal)
    (hsd : setdefault_findings r = some old) : findings_ann r = old := by
  unfold setdefault_findings at hsd
  unfold findings_ann
  cases halist : alistGet "c7n.findings" r with
  | none =>
    rw [halist] at hsd
    simp only [Option.some.injEq] at hsd
    simp [hsd]
  | some v =>
    rw [halist] at hsd
    cases v with
    | arr l =>
      simp only [Option.some.injEq] at hsd
      simp [hsd]
    | null => simp at hsd
    | boolV b => simp at hsd
    | num q => simp at hsd
    | str s => simp at hsd
    | obj fs => simp at hsd

end SccFindingsFilter

/-- Claim C7: with no `key` configured, the findings predicate is exactly
the existence check `len(resource_findings) > 0`: the resource is retained
iff at least one finding correlates to it, and the `'c7n.findings'`
annotation list is extended by exactly the correlated findings (by nothing
when there are none). -/
theorem c7_no_key_means_existence_check (fc : SccFindingsFilter.Config)
    (dict : List (JVal × List JVal)) (r : Resource) (rn : JVal) (old : List JVal)
    (hkey : fc.has_key = false)
    (hname : alistGet fc.name_attr r = some rn)
    (hsd : SccFindingsFilter.setdefault_findings r = some old) :
    SccFindingsFilter.process_resource fc dict r =
      Except.ok (alistSet "c7n.findings" (JVal.arr (old ++ listAt rn dict)) r,
        decide ((listAt rn dict).length > 0)) := by
  simp [SccFindingsFilter.process_resource, hname, hsd, hkey]

/-- Claim C7 witness, scenarios C and D of the spec: resource `vm-1`
without a configured `key`; with one correlated finding it is retained and
the annotation list has length 1, with zero findings it is dropped and the
annotation list has length 0. -/
theorem c7_no_key_means_existence_check_witness :
    Samples.cfgF.has_key = false ∧
    alistGet Samples.cfgF.name_attr Samples.rVm1 = some (JVal.str "vm-1") ∧
    SccFindingsFilter.setdefault_findings Samples.rVm1 = some [] ∧
    SccFindingsFilter.process_resource Samples.cfgF [] Samples.rVm1 =
      Except.ok (Samples.rVm1 ++ [("c7n.findings", JVal.arr [])], false) ∧
    SccFindingsFilter.process_resource Samples.cfgF
        [(JVal.str "vm-1", [Samples.findingOn "//compute.googleapis.com/vm-1" "X"])]
        Samples.rVm1 =
      Except.ok (Samples.rVm1 ++ [("c7n.findings",
        JVal.arr [Samples.findingOn "//compute.googleapis.com/vm-1" "X"])], true) := by
  refine ⟨rfl, rfl, rfl, ?_, ?_⟩
  · have h := c7_no_key_means_existence_check Samples.cfgF [] Samples.rVm1
      (JVal.str "vm-1") [] rfl rfl rfl
    rw [h]
    rfl
  · have h := c7_no_key_means_existence_check Samples.cfgF
      [(JVal.str "vm-1", [Samples.findingOn "//compute.googleapis.com/vm-1" "X"])]
      Samples.rVm1 (JVal.str "vm-1") [] rfl rfl rfl
    rw [h]
    rfl

/-- Claim C9: the threshold predicate with operator `less-than` is
monotone in the configured threshold — if a resource is retained at
threshold `v1` and `v1 ≤ v2`, it is retained (with the same annotated
resource) at threshold `v2`. -/
theorem c9_less_than_threshold_monotone (cfg : GCPMetricsFilter.Config)
    (dict : List (Option JVal × JVal)) (r r' : Resource) (v1 v2 : Rat)
    (hv : v1 ≤ v2)
    (h : GCPMetricsFilter.process_resource (cfg.withOp opLessThan v1) dict r =
      Except.ok (r', true)) :
    GCPMetricsFilter.process_resource (cfg.withOp opLessThan v2) dict r =
      Except.ok (r', true) := by
  rw [GCPMetricsFilter.metrics_process_resource_ok_iff] at h ⊢
  obtain ⟨rm, mv, hsd, hmv, hr, hb⟩ := h
  refine ⟨rm, mv, hsd, hmv, hr, ?_⟩
  have h1 : mv < v1 := by
    have := hb.symm
    simpa [GCPMetricsFilter.Config.withOp, opLessThan] using this
  show true = (cfg.withOp opLessThan v2).op mv (cfg.withOp opLessThan v2).value
  simp [GCPMetricsFilter.Config.withOp, opLessThan]
  exact lt_of_lt_of_le h1 hv

namespace Samples

/-- The resource `vm-1` after one threshold-filter evaluation with no
correlated record: annotated with `None` under the composite key. -/
def rVm1M : Resource :=
  rVm1 ++ [("c7n.metrics", JVal.obj [("m.ALIGN_NONE.REDUCE_NONE", JVal.null)])]

/-- The resource `vm-1` after one match-filter evaluation with no
correlated findings: annotated with the empty findings list. -/
def rVm1F : Resource := rVm1 ++ [("c7n.findings", JVal.arr [])]

end Samples

/-- Claim C9 witness: a resource whose observed value defaults to 0 is
retained at threshold 1 (`0 < 1`), hence by monotonicity also at threshold
2, with the identical annotated resource. -/
theorem c9_less_than_threshold_monotone_witness :
    (1 : Rat) ≤ 2 ∧
    GCPMetricsFilter.process_resource (Samples.cfgM.withOp opLessThan 1) [] Samples.rVm1 =
      Except.ok (Samples.rVm1M, true) ∧
    GCPMetricsFilter.process_resource (Samples.cfgM.withOp opLessThan 2) [] Samples.rVm1 =
      Except.ok (Samples.rVm1M, true) := by
  refine ⟨by norm_num, rfl, ?_⟩
  exact c9_less_than_threshold_monotone Samples.cfgM [] Samples.rVm1 Samples.rVm1M 1 2
    (by norm_num) rfl

/-- Claim C3: every resource that survives an evaluation run carries its
namespaced annotation entry — the metrics filter leaves a `'c7n.metrics'`
dictionary holding the composite key, the findings filter a
`'c7n.findings'` list — and the annotated resource does not depend on the
comparison operator, threshold, or match predicate, so dropped resources
are annotated exactly like retained ones. -/
theorem c3_annotation_precedes_predicate :
    (∀ (cfg : GCPMetricsFilter.Config) (dict : List (Option JVal × JVal))
        (r r' : Resource) (b : Bool),
      GCPMetricsFilter.process_resource cfg dict r = Except.ok (r', b) →
      alistGet "c7n.metrics" r' = some (JVal.obj (GCPMetricsFilter.metrics_ann r')) ∧
      (alistGet (GCPMetricsFilter.c7n_metric_key cfg)
        (GCPMetricsFilter.metrics_ann r')).isSome = true) ∧
    (∀ (cfg : GCPMetricsFilter.Config) (dict : List (Option JVal × JVal))
        (r r2 r3 : Resource) (op2 : Rat → Rat → Bool) (v2 : Rat)
        (op3 : Rat → Rat → Bool) (v3 : Rat) (b2 b3 : Bool),
      GCPMetricsFilter.process_resource (cfg.withOp op2 v2) dict r = Except.ok (r2, b2) →
      GCPMetricsFilter.process_resource (cfg.withOp op3 v3) dict r = Except.ok (r3, b3) →
      r2 = r3) ∧
    (∀ (fc : SccFindingsFilter.Config) (dict : List (JVal × List JVal))
        (r r' : Resource) (b : Bool),
      SccFindingsFilter.process_resource fc dict r = Except.ok (r', b) →
      alistGet "c7n.findings" r' = some (JVal.arr (SccFindingsFilter.findings_ann r'))) ∧
    (∀ (fc : SccFindingsFilter.Config) (dict : List (JVal × List JVal))
        (r r2 r3 : Resource) (hk2 : Bool) (mf2 : List JVal → Bool)
        (hk3 : Bool) (mf3 : List JVal → Bool) (b2 b3 : Bool),
      SccFindingsFilter.process_resource (fc.withMatch hk2 mf2) dict r = Except.ok (r2, b2) →
      SccFindingsFilter.process_resource (fc.withMatch hk3 mf3) dict r = Except.ok (r3, b3) →
      r2 = r3) := by
  refine ⟨?_, ?_, ?_, ?_⟩
  · intro cfg dict r r' b h
    rw [GCPMetricsFilter.metrics_process_resource_ok_iff] at h
    obtain ⟨rm, mv, hsd, hmv, hr, hb⟩ := h
    subst hr
    have hma : GCPMetricsFilter.metrics_ann
        (alistSet "c7n.metrics"
          (JVal.obj (alistSet (GCPMetricsFilter.c7n_metric_key cfg)
            ((alistGet (jsearch cfg.resource_key
              (JVal.obj (alistSet "c7n.metrics" (JVal.obj rm) r))) dict).getD JVal.null) rm))
          (alistSet "c7n.metrics" (JVal.obj rm) r)) =
        alistSet (GCPMetricsFilter.c7n_metric_key cfg)
          ((alistGet (jsearch cfg.resource_key
            (JVal.obj (alistSet "c7n.metrics" (JVal.obj rm) r))) dict).getD JVal.null) rm := by
      unfold GCPMetricsFilter.metrics_ann
      rw [alistGet_set_self]
    rw [hma]
    constructor
    · exact alistGet_set_self _ _ _
    · rw [alistGet_set_self]
      rfl
  · intro cfg dict r r2 r3 op2 v2 op3 v3 b2 b3 h2 h3
    rw [GCPMetricsFilter.metrics_process_resource_ok_iff] at h2 h3
    obtain ⟨rm2, mv2, hsd2, hmv2, hr2, hb2⟩ := h2
    obtain ⟨rm3, mv3, hsd3, hmv3, hr3, hb3⟩ := h3
    rw [hsd2] at hsd3
    injection hsd3 with he
    subst he
    subst hr2 hr3
    rfl
  · intro fc dict r r' b h
    rw [SccFindingsFilter.findings_process_resource_ok_iff] at h
    obtain ⟨rn, old, hname, hsd, hr, hb⟩ := h
    subst hr
    have hfa : SccFindingsFilter.findings_ann
        (alistSet "c7n.findings" (JVal.arr (old ++ listAt rn dict)) r) =
        old ++ listAt rn dict := by
      unfold SccFindingsFilter.findings_ann
      rw [alistGet_set_self]
    rw [hfa]
    exact alistGet_set_self _ _ _
  · intro fc dict r r2 r3 hk2 mf2 hk3 mf3 b2 b3 h2 h3
    rw [SccFindingsFilter.findings_process_resource_ok_iff] at h2 h3
    obtain ⟨rn2, old2, hname2, hsd2, hr2, hb2⟩ := h2
    obtain ⟨rn3, old3, hname3, hsd3, hr3, hb3⟩ := h3
    simp only [SccFindingsFilter.Config.withMatch] at hname2 hname3
    rw [hname2] at hname3
    injection hname3 with he
    subst he
    rw [hsd2] at hsd3
    injection hsd3 with he2
    subst he2
    subst hr2 hr3
    rfl

/-- Claim C3 witness: concrete runs of both filters on `vm-1` with an
empty correlation index; a retaining and a dropping predicate produce the
same annotated resource, which carries the `'c7n.metrics'` composite key
(resp. the `'c7n.findings'` list). -/
theorem c3_annotation_precedes_predicate_witness :
    GCPMetricsFilter.process_resource Samples.cfgM [] Samples.rVm1 =
      Except.ok (Samples.rVm1M, true) ∧
    alistGet "c7n.metrics" Samples.rVm1M =
      some (JVal.obj (GCPMetricsFilter.metrics_ann Samples.rVm1M)) ∧
    (alistGet (GCPMetricsFilter.c7n_metric_key Samples.cfgM)
      (GCPMetricsFilter.metrics_ann Samples.rVm1M)).isSome = true ∧
    GCPMetricsFilter.process_resource (Samples.cfgM.withOp opLessThan 1) [] Samples.rVm1 =
      Except.ok (Samples.rVm1M, true) ∧
    GCPMetricsFilter.process_resource
        (Samples.cfgM.withOp (fun a b => decide (b < a)) 1) [] Samples.rVm1 =
      Except.ok (Samples.rVm1M, false) ∧
    SccFindingsFilter.process_resource Samples.cfgF [] Samples.rVm1 =
      Except.ok (Samples.rVm1F, false) ∧
    alistGet "c7n.findings" Samples.rVm1F =
      some (JVal.arr (SccFindingsFilter.findings_ann Samples.rVm1F)) ∧
    SccFindingsFilter.process_resource
        (Samples.cfgF.withMatch false (fun _ => false)) [] Samples.rVm1 =
      Except.ok (Samples.rVm1F, false) ∧
    SccFindingsFilter.process_resource
        (Samples.cfgF.withMatch true (fun _ => true)) [] Samples.rVm1 =
      Except.ok (Samples.rVm1F, true) := by
  refine ⟨rfl, ?_, ?_, rfl, rfl, rfl, ?_, rfl, rfl⟩
  · exact (c3_annotation_precedes_predicate.1 Samples.cfgM [] Samples.rVm1
      Samples.rVm1M true rfl).1
  · exact (c3_annotation_precedes_predicate.1 Samples.cfgM [] Samples.rVm1
      Samples.rVm1M true rfl).2
  · exact c3_annotation_precedes_predicate.2.2.1 Samples.cfgF [] Samples.rVm1
      Samples.rVm1F false rfl

/-- Claim C8: re-evaluating a resource with the same threshold-filter
configuration is idempotent — the second run returns the identical
resource and verdict, because the composite-key assignment overwrites —
while re-evaluating with a match-filter configuration is not: the second
run appends the correlated findings to the `'c7n.findings'` list again. -/
theorem c8_threshold_overwrites_match_appends :
    (∀ (cfg : GCPMetricsFilter.Config) (dict : List (Option JVal × JVal))
        (r r' : Resource) (b : Bool),
      firstSeg cfg.resource_key ≠ "c7n.metrics" →
      GCPMetricsFilter.process_resource cfg dict r = Except.ok (r', b) →
      GCPMetricsFilter.process_resource cfg dict r' = Except.ok (r', b)) ∧
    (∀ (fc : SccFindingsFilter.Config) (dict : List (JVal × List JVal))
        (r r' : Resource) (rn : JVal) (b : Bool),
      fc.name_attr ≠ "c7n.findings" →
      alistGet fc.name_attr r = some rn →
      SccFindingsFilter.process_resource fc dict r = Except.ok (r', b) →
      SccFindingsFilter.process_resource fc dict r' =
        Except.ok (alistSet "c7n.findings"
          (JVal.arr (SccFindingsFilter.findings_ann r' ++ listAt rn dict)) r', b) ∧
      SccFindingsFilter.findings_ann r' =
        SccFindingsFilter.findings_ann r ++ listAt rn dict) := by
  constructor
  · intro cfg dict r r' b hseg h
    rw [GCPMetricsFilter.metrics_process_resource_ok_iff] at h ⊢
    obtain ⟨rm, mv, hsd, hmv, hr, hb⟩ := h
    subst hb
    set r1 := alistSet "c7n.metrics" (JVal.obj rm) r with hr1
    set E := (alistGet (jsearch cfg.resource_key (JVal.obj r1)) dict).getD JVal.null with hE
    set rm2 := alistSet (GCPMetricsFilter.c7n_metric_key cfg) E rm with hrm2
    refine ⟨rm2, mv, ?_, ?_, ?_, rfl⟩
    · subst hr
      unfold GCPMetricsFilter.setdefault_metrics
      rw [alistGet_set_self]
    · subst hr
      rw [alistSet_idem "c7n.metrics" (JVal.obj rm2) r1,
        jsearch_alistSet_ne _ _ _ _ hseg, ← hE]
      exact hmv
    · subst hr
      rw [alistSet_idem "c7n.metrics" (JVal.obj rm2) r1,
        jsearch_alistSet_ne _ _ _ _ hseg, ← hE]
      have hidem2 : alistSet (GCPMetricsFilter.c7n_metric_key cfg) E rm2 = rm2 := by
        rw [hrm2]
        exact alistSet_idem _ _ _
      rw [hidem2]
      exact (alistSet_idem _ _ _).symm
  · intro fc dict r r' rn b hne hname h
    rw [SccFindingsFilter.findings_process_resource_ok_iff] at h
    obtain ⟨rn2, old, hname2, hsd, hr, hb⟩ := h
    rw [hname] at hname2
    injection hname2 with hrn2
    subst hrn2
    have hann : SccFindingsFilter.findings_ann r = old :=
      SccFindingsFilter.findings_ann_of_setdefault r old hsd
    have hann' : SccFindingsFilter.findings_ann r' = old ++ listAt rn dict := by
      subst hr
      unfold SccFindingsFilter.findings_ann
      rw [alistGet_set_self]
    refine ⟨?_, by rw [hann', hann]⟩
    rw [SccFindingsFilter.findings_process_resource_ok_iff]
    refine ⟨rn, old ++ listAt rn dict, ?_, ?_, ?_, hb⟩
    · subst hr
      rw [alistGet_set_ne _ _ _ _ hne]
      exact hname
    · subst hr
      unfold SccFindingsFilter.setdefault_findings
      rw [alistGet_set_self]
    · rw [hann']

namespace Samples

/-- A finding on `vm-1`. -/
def fVm1 : JVal := findingOn "//compute.googleapis.com/vm-1" "X"

/-- A findings correlation index holding `fVm1` under key `vm-1`. -/
def dictVm1F : List (JVal × List JVal) := [(JVal.str "vm-1", [fVm1])]

/-- Resource `vm-1` after one match-filter evaluation against `dictVm1F`. -/
def rVm1F1 : Resource := rVm1 ++ [("c7n.findings", JVal.arr [fVm1])]

/-- Resource `vm-1` after two match-filter evaluations against `dictVm1F`: the
finding has been appended twice. -/
def rVm1F2 : Resource := rVm1 ++ [("c7n.findings", JVal.arr [fVm1, fVm1])]

end Samples

/-- Claim C8 witness: re-running the threshold filter on the annotated
`vm-1` returns it unchanged (overwrite), while re-running the match filter
appends the same finding a second time, growing the `'c7n.findings'` list
from length 1 to length 2. -/
theorem c8_threshold_overwrites_match_appends_witness :
    firstSeg Samples.cfgM.resource_key ≠ "c7n.metrics" ∧
    GCPMetricsFilter.process_resource Samples.cfgM [] Samples.rVm1 =
      Except.ok (Samples.rVm1M, true) ∧
    GCPMetricsFilter.process_resource Samples.cfgM [] Samples.rVm1M =
      Except.ok (Samples.rVm1M, true) ∧
    Samples.cfgF.name_attr ≠ "c7n.findings" ∧
    alistGet Samples.cfgF.name_attr Samples.rVm1 = some (JVal.str "vm-1") ∧
    SccFindingsFilter.process_resource Samples.cfgF Samples.dictVm1F Samples.rVm1 =
      Except.ok (Samples.rVm1F1, true) ∧
    SccFindingsFilter.process_resource Samples.cfgF Samples.dictVm1F Samples.rVm1F1 =
      Except.ok (Samples.rVm1F2, true) ∧
    SccFindingsFilter.findings_ann Samples.rVm1F1 = [Samples.fVm1] ∧
    SccFindingsFilter.findings_ann Samples.rVm1F2 = [Samples.fVm1, Samples.fVm1] := by
  have hseg : firstSeg Samples.cfgM.resource_key ≠ "c7n.metrics" := by decide
  have hne : Samples.cfgF.name_attr ≠ "c7n.findings" := by decide
  have h2 := c8_threshold_overwrites_match_appends.1 Samples.cfgM [] Samples.rVm1
    Samples.rVm1M true hseg rfl
  have h3 := c8_threshold_overwrites_match_appends.2 Samples.cfgF Samples.dictVm1F
    Samples.rVm1 Samples.rVm1F1 (JVal.str "vm-1") true hne rfl rfl
  exact ⟨hseg, rfl, h2, hne, rfl, rfl, h3.1, rfl, rfl⟩
